import Mathlib

/-!
# Hiring Assistant — three-phase assessment pipeline, verified embedding

Shallow embedding of the assessment execution and scoring pipeline of the
Hiring_Assistant-AI repository.  The scoring rules, verdict bands, selector,
judge and state machine live in the Python backend (`app.py`,
`project/judge.py`, `project/question_selector.py`, `project/hr_selector.py`),
which is not part of the checked-in sources here; those components are
modelled from the specification (each such definition says so in its doc
comment).  The frontend React components (`CodingAssessment.jsx`,
`HRAssessment.jsx`, `CandidateDetail.jsx`, `CandidateList.jsx`,
`AdminDashboard.jsx`) are embedded from their source.
-/

/-- The assessment phases, in their fixed order. -/
inductive Phase
  | RESUME_DONE
  | CODING_PENDING
  | CODING_DONE
  | HR_PENDING
  | COMPLETE
deriving DecidableEq

/-- Numeric rank of a phase, used to express "at or past" a phase. -/
def Phase.rank : Phase → ℕ
  | .RESUME_DONE => 0
  | .CODING_PENDING => 1
  | .CODING_DONE => 2
  | .HR_PENDING => 3
  | .COMPLETE => 4

/-- `p` is at or past phase `q` in the fixed phase order. -/
def Phase.atLeast (p q : Phase) : Prop := q.rank ≤ p.rank

instance (p q : Phase) : Decidable (p.atLeast q) := by
  unfold Phase.atLeast; infer_instance

/-- The error taxonomy of the core (configuration, state and storage errors). -/
inductive CoreError
  | InsufficientPoolSize
  | NoTestCases
  | PhaseMismatch
  | PhaseAlreadyComplete
  | NotFound
deriving DecidableEq

/-! ## Phase scorer -/

/-- Modelled from the spec: `round(x, 1)` — rounding a score to one decimal
place, as applied to the final weighted score. -/
def roundTo1 (x : ℚ) : ℚ := ((round (10 * x) : ℤ) : ℚ) / 10

/-- Modelled from the spec: the final weighted score
`round(resume_score*0.30 + coding_score*0.40 + hr_score*0.30, 1)` computed by
the backend when the HR phase completes. -/
def finalScore (r c h : ℚ) : ℚ :=
  roundTo1 (r * (30 / 100) + c * (40 / 100) + h * (30 / 100))

/-- Modelled from the spec: the verdict label chosen from the five fixed
bands of the final score, half-open on the lower edge. -/
def verdictLabel (x : ℚ) : String :=
  if 80 ≤ x then "Strong match"
  else if 65 ≤ x then "Good match"
  else if 50 ≤ x then "Moderate match"
  else if 40 ≤ x then "Below average"
  else "Poor match"

/-- Modelled from the spec: the coding phase score
`100 * passed_count / total_test_count` rounded to the nearest integer,
failing with `NoTestCases` when the assigned questions carry no test cases. -/
def codingScore (passed total : ℕ) : Except CoreError ℕ :=
  if total = 0 then .error .NoTestCases
  else .ok (round ((100 * (passed : ℚ)) / (total : ℚ))).toNat

/-- Word counter over a character stream: the Boolean records whether the
previous character was inside a word, so a maximal run of non-whitespace
characters counts once. -/
def wordsAux : List Char → Bool → ℕ
  | [], _ => 0
  | c :: cs, inWord =>
      if c.isWhitespace then wordsAux cs false
      else (if inWord then 0 else 1) + wordsAux cs true

/-- Modelled from the spec: whitespace-delimited word count of a behavioral
answer; an empty or whitespace-only answer counts 0 words. -/
def wordCount (s : String) : ℕ := wordsAux s.data false

/-- Modelled from the spec: the fixed per-answer score bands on word count. -/
def hrBand (n : ℕ) : ℕ :=
  if 50 ≤ n then 100
  else if 30 ≤ n then 85
  else if 15 ≤ n then 70
  else if 5 ≤ n then 50
  else if 1 ≤ n then 20
  else 0

/-- Modelled from the spec: the score of one behavioral answer, a function of
its word count alone. -/
def answerScore (s : String) : ℕ := hrBand (wordCount s)

/-- Modelled from the spec: the HR phase score — the arithmetic mean of the
per-answer scores across all assigned behavioral questions, rounded to the
nearest integer. -/
def hrScore (answers : List String) : ℕ :=
  (round ((((answers.map answerScore).sum : ℕ) : ℚ) / (answers.length : ℚ))).toNat

/-! ## Execution harness / judge (modelled from the spec) -/

/-- One hidden test case of a coding question; the expected value is kept in
its canonical serialized form. -/
structure TestCase where
  input : String
  expected : String
deriving DecidableEq

/-- A coding question: id, prompt and its ordered test cases. -/
structure CodingQuestion where
  id : ℕ
  prompt : String
  tests : List TestCase
deriving DecidableEq

/-- The two recoverable per-test-case execution errors. -/
inductive ExecError
  | timeout
  | runtimeError
deriving DecidableEq

/-- Modelled from the spec: the outcome of running the candidate's program on
one test case in an isolated child process — it either exceeds the wall-clock
timeout, exits abnormally / prints unparsable output, or produces a canonical
serialized output value. -/
inductive ExecOutcome
  | timeout
  | runtimeError
  | output (v : String)
deriving DecidableEq

/-- Per-test-case judging record: question id, test case index, actual
output (absent on timeout or runtime error), expected output, pass flag and
the error kind when one occurred. -/
structure TestExecutionResult where
  question_id : ℕ
  case_index : ℕ
  actual : Option String
  expected : String
  passed : Bool
  error : Option ExecError
deriving DecidableEq

/-- Modelled from the spec: how one execution outcome is folded into a
`TestExecutionResult` — timeout and runtime error record the error with
`passed = false`; an output is deep-compared (here: canonical serialized
values compare by equality) against the expected value. -/
def judgeCase (qid idx : ℕ) (tc : TestCase) (out : ExecOutcome) : TestExecutionResult :=
  match out with
  | .timeout => ⟨qid, idx, none, tc.expected, false, some .timeout⟩
  | .runtimeError => ⟨qid, idx, none, tc.expected, false, some .runtimeError⟩
  | .output v => ⟨qid, idx, some v, tc.expected, v == tc.expected, none⟩

/-- Modelled from the spec: the judge evaluates every test case of a question
independently (the environment `exec` gives each case's isolated execution
outcome) and reports results in original test-case order. -/
def judgeQuestion (exec : ℕ → ℕ → ExecOutcome) (q : CodingQuestion) :
    List TestExecutionResult :=
  q.tests.enum.map (fun p => judgeCase q.id p.1 p.2 (exec q.id p.1))

/-- Modelled from the spec: a full judging pass over all assigned coding
questions of a submission. -/
def runJudge (exec : ℕ → ℕ → ExecOutcome) (qs : List CodingQuestion) :
    List TestExecutionResult :=
  (qs.map (judgeQuestion exec)).flatten

/-! ## Assessment session and state machine (modelled from the spec) -/

/-- The per-candidate assessment session record (§3 of the spec). -/
structure AssessmentSession where
  candidate_id : ℕ
  resume_score : ℕ
  assigned_coding : Option (List ℕ)
  assigned_behavioral : Option (List ℕ)
  coding_score : Option ℕ
  hr_score : Option ℕ
  final_score : Option ℚ
  final_verdict : Option String
  phase : Phase
deriving DecidableEq

/-- One submitted answer, as sent by the applicant UI. -/
structure SubmittedAnswer where
  question_id : ℕ
  answer : String
deriving DecidableEq

/-- Modelled from the spec: coding-question selection.  The environment's
`draw` function stands for the uniform sample without replacement (its
distribution is not modelled).  An already-assigned set is returned frozen;
otherwise a pool smaller than `k` fails with `InsufficientPoolSize`, and a
fresh draw is stored into the session. -/
def selectCoding (draw : ℕ → List ℕ → ℕ → List ℕ) (seed k : ℕ) (pool : List ℕ)
    (s : AssessmentSession) : Except CoreError (List ℕ × AssessmentSession) :=
  match s.assigned_coding with
  | some ids => .ok (ids, s)
  | none =>
      if pool.length < k then .error .InsufficientPoolSize
      else .ok (draw seed pool k,
        { s with assigned_coding := some (draw seed pool k) })

/-- Modelled from the spec: behavioral-question selection, same contract as
`selectCoding` over the behavioral pool and the session's
`assigned_behavioral` field. -/
def selectBehavioral (draw : ℕ → List ℕ → ℕ → List ℕ) (seed m : ℕ) (pool : List ℕ)
    (s : AssessmentSession) : Except CoreError (List ℕ × AssessmentSession) :=
  match s.assigned_behavioral with
  | some ids => .ok (ids, s)
  | none =>
      if pool.length < m then .error .InsufficientPoolSize
      else .ok (draw seed pool m,
        { s with assigned_behavioral := some (draw seed pool m) })

/-- Modelled from the spec: `GetCodingQuestions` — selects (or recalls) the
assigned coding questions, answers with the question ids and the session's
resume score, and performs the lazy `RESUME_DONE → CODING_PENDING`
transition only when the session is not already past it. -/
def getCodingQuestions (draw : ℕ → List ℕ → ℕ → List ℕ) (seed k : ℕ)
    (pool : List ℕ) (s : AssessmentSession) :
    Except CoreError ((List ℕ × ℕ) × AssessmentSession) :=
  match selectCoding draw seed k pool s with
  | .error e => .error e
  | .ok (ids, s1) =>
      .ok ((ids, s1.resume_score),
        if s1.phase = .RESUME_DONE then { s1 with phase := .CODING_PENDING } else s1)

/-- Modelled from the spec: `SubmitCodingAnswers` on one session.  A
submission in `CODING_PENDING` computes the coding score (the environment's
`judge` stands for the §4.2/§4.3 pipeline), writes it once and moves through
the automatic `CODING_DONE → HR_PENDING` hop; a submission before the coding
phase fails with `PhaseMismatch`; a submission at `CODING_DONE` or later
fails with `PhaseAlreadyComplete`. -/
def submitCodingAnswers (judge : List SubmittedAnswer → ℕ) (s : AssessmentSession)
    (ans : List SubmittedAnswer) : Except CoreError (AssessmentSession × ℕ) :=
  match s.phase with
  | .RESUME_DONE => .error .PhaseMismatch
  | .CODING_PENDING =>
      .ok ({ s with coding_score := some (judge ans), phase := .HR_PENDING }, judge ans)
  | _ => .error .PhaseAlreadyComplete

/-- Modelled from the spec: the `SubmitCodingAnswers` endpoint over the
session store (`get`/`put` with last-write-wins); the store is written only
after a successful transition, so a rejected submission leaves it unchanged. -/
def submitCodingEndpoint (judge : List SubmittedAnswer → ℕ)
    (store : ℕ → Option AssessmentSession) (sid : ℕ) (ans : List SubmittedAnswer) :
    (ℕ → Option AssessmentSession) × Except CoreError ℕ :=
  match store sid with
  | none => (store, .error .NotFound)
  | some s =>
      match submitCodingAnswers judge s ans with
      | .error e => (store, .error e)
      | .ok (s1, score) => (fun j => if j = sid then some s1 else store j, .ok score)

/-! ## Frontend embeddings (from the React sources) -/

/-- A question as the applicant UI receives it. -/
structure UIQuestion where
  id : ℕ
  question : String
deriving DecidableEq

/-- JavaScript `x || ''` on a possibly-absent string: absent and the empty
string are both falsy, so both give `''`. -/
def jsOrEmpty (v : Option String) : String :=
  match v with
  | none => ""
  | some s => if s = "" then "" else s

/-- From `CodingAssessment.handleSubmit`:
`questions.map(q => ({ question_id: q.id, answer: answers[q.id] || '' }))`. -/
def codingFormattedAnswers (questions : List UIQuestion) (answers : ℕ → Option String) :
    List SubmittedAnswer :=
  questions.map (fun q => ⟨q.id, jsOrEmpty (answers q.id)⟩)

/-- From `HRAssessment.handleSubmit`:
`hrQuestions.map(q => ({ question_id: q.id, answer: answers[q.id] || '' }))`. -/
def hrFormattedAnswers (questions : List UIQuestion) (answers : ℕ → Option String) :
    List SubmittedAnswer :=
  questions.map (fun q => ⟨q.id, jsOrEmpty (answers q.id)⟩)

/-- From the admin views (`CandidateDetail`, `CandidateList`,
`AdminDashboard`): the JSX text `{candidate.coding_score || 'N/A'}`; a JS
numeric `0` is falsy exactly like a missing value, so both render "N/A". -/
def renderCodingScore (coding_score : Option ℤ) : String :=
  match coding_score with
  | none => "N/A"
  | some n => if n = 0 then "N/A" else toString n

/-! ## Theorems: scoring formulas (claims about §4.3) -/

lemma roundTo1_natCast_div_ten (n : ℕ) : roundTo1 ((n : ℚ) / 10) = (n : ℚ) / 10 := by
  unfold roundTo1
  rw [mul_div_cancel₀ (b := (10 : ℚ)) (a := (n : ℚ)) (by norm_num)]
  rw [round_natCast]
  norm_num

/-- C1: the final score equals `round(r*0.30 + c*0.40 + h*0.30, 1)`; for
integer phase scores the weighted sum is already a multiple of one tenth, so
it equals `(3r + 4c + 3h)/10` exactly, and resume 80, coding 60, hr 100
yields exactly 78.0. -/
theorem finalScore_formula :
    (∀ r c h : ℕ, finalScore r c h = (((3 * r + 4 * c + 3 * h : ℕ) : ℚ)) / 10) ∧
    finalScore 80 60 100 = 78 := by
  constructor
  · intro r c h
    unfold finalScore
    have harg : (r : ℚ) * (30 / 100) + (c : ℚ) * (40 / 100) + (h : ℚ) * (30 / 100)
        = ((3 * r + 4 * c + 3 * h : ℕ) : ℚ) / 10 := by
      push_cast; ring
    rw [harg, roundTo1_natCast_div_ten]
  · unfold finalScore
    have harg : (80 : ℚ) * (30 / 100) + (60 : ℚ) * (40 / 100) + (100 : ℚ) * (30 / 100)
        = ((780 : ℕ) : ℚ) / 10 := by norm_num
    rw [harg, roundTo1_natCast_div_ten]
    norm_num

/-- C2: the verdict bands, half-open on the lower edge: `[80,100]` gives
"Strong match", `[65,80)` "Good match", `[50,65)` "Moderate match",
`[40,50)` "Below average", `[0,40)` "Poor match"; 65.0 maps to
"Good match" and 64.99 to "Moderate match". -/
theorem verdictLabel_bands :
    (∀ x : ℚ, 80 ≤ x → x ≤ 100 → verdictLabel x = "Strong match") ∧
    (∀ x : ℚ, 65 ≤ x → x < 80 → verdictLabel x = "Good match") ∧
    (∀ x : ℚ, 50 ≤ x → x < 65 → verdictLabel x = "Moderate match") ∧
    (∀ x : ℚ, 40 ≤ x → x < 50 → verdictLabel x = "Below average") ∧
    (∀ x : ℚ, 0 ≤ x → x < 40 → verdictLabel x = "Poor match") ∧
    verdictLabel 65 = "Good match" ∧ verdictLabel (64.99 : ℚ) = "Moderate match" := by
  refine ⟨?_, ?_, ?_, ?_, ?_, ?_, ?_⟩
  · intro x h1 _
    unfold verdictLabel
    rw [if_pos h1]
  · intro x h1 h2
    unfold verdictLabel
    rw [if_neg (by linarith), if_pos h1]
  · intro x h1 h2
    unfold verdictLabel
    rw [if_neg (by linarith), if_neg (by linarith), if_pos h1]
  · intro x h1 h2
    unfold verdictLabel
    rw [if_neg (by linarith), if_neg (by linarith), if_neg (by linarith), if_pos h1]
  · intro x _ h2
    unfold verdictLabel
    rw [if_neg (by linarith), if_neg (by linarith), if_neg (by linarith),
      if_neg (by linarith)]
  · unfold verdictLabel
    rw [if_neg (by norm_num), if_pos (by norm_num)]
  · unfold verdictLabel
    rw [if_neg (by norm_num), if_neg (by norm_num), if_pos (by norm_num)]

/-- Witness for C2 at a concrete input. -/
theorem verdictLabel_bands_witness : verdictLabel 70 = "Good match" :=
  verdictLabel_bands.2.1 70 (by norm_num) (by norm_num)

/-- C3: with at least one test case the coding score is
`100 * passed_count / total_test_count` rounded to the nearest integer; with
zero test cases the scorer fails with `NoTestCases` rather than returning a
score. -/
theorem codingScore_spec :
    (∀ p t : ℕ, t ≠ 0 →
      codingScore p t = .ok (round ((100 * (p : ℚ)) / (t : ℚ))).toNat) ∧
    (∀ p : ℕ, codingScore p 0 = .error .NoTestCases) := by
  constructor
  · intro p t ht
    unfold codingScore
    rw [if_neg ht]
  · intro p
    unfold codingScore
    rw [if_pos rfl]

/-- Witness for C3: 2 of 3 test cases passed rounds to 67, and an empty
test-case set fails. -/
theorem codingScore_spec_witness :
    codingScore 2 3 = .ok (round ((100 * (2 : ℚ)) / (3 : ℚ))).toNat ∧
    codingScore 5 0 = .error .NoTestCases :=
  ⟨codingScore_spec.1 2 3 (by norm_num), codingScore_spec.2 5⟩

lemma wordsAux_all_whitespace :
    ∀ (l : List Char), (∀ c ∈ l, c.isWhitespace = true) → ∀ b, wordsAux l b = 0 := by
  intro l
  induction l with
  | nil => intro _ b; rfl
  | cons c cs ih =>
      intro h b
      unfold wordsAux
      rw [if_pos (h c (List.mem_cons_self c cs))]
      exact ih (fun d hd => h d (List.mem_cons_of_mem c hd)) false

/-- C4: each behavioral answer is scored solely by its whitespace-delimited
word count through the fixed bands (≥50 → 100, 30–49 → 85, 15–29 → 70,
5–14 → 50, 1–4 → 20, whitespace-only → 0 words → 0), and the HR phase score
is the rounded arithmetic mean of the per-answer scores. -/
theorem hrScoring_spec :
    (∀ a b : String, wordCount a = wordCount b → answerScore a = answerScore b) ∧
    (∀ s : String, 50 ≤ wordCount s → answerScore s = 100) ∧
    (∀ s : String, 30 ≤ wordCount s → wordCount s ≤ 49 → answerScore s = 85) ∧
    (∀ s : String, 15 ≤ wordCount s → wordCount s ≤ 29 → answerScore s = 70) ∧
    (∀ s : String, 5 ≤ wordCount s → wordCount s ≤ 14 → answerScore s = 50) ∧
    (∀ s : String, 1 ≤ wordCount s → wordCount s ≤ 4 → answerScore s = 20) ∧
    (∀ s : String, (∀ c ∈ s.data, c.isWhitespace = true) →
      wordCount s = 0 ∧ answerScore s = 0) ∧
    (∀ l : List String,
      hrScore l =
        (round ((((l.map answerScore).sum : ℕ) : ℚ) / (l.length : ℚ))).toNat) := by
  refine ⟨?_, ?_, ?_, ?_, ?_, ?_, ?_, ?_⟩
  · intro a b h
    unfold answerScore
    rw [h]
  · intro s h
    unfold answerScore hrBand
    rw [if_pos h]
  · intro s h1 h2
    unfold answerScore hrBand
    rw [if_neg (by omega), if_pos h1]
  · intro s h1 h2
    unfold answerScore hrBand
    rw [if_neg (by omega), if_neg (by omega), if_pos h1]
  · intro s h1 h2
    unfold answerScore hrBand
    rw [if_neg (by omega), if_neg (by omega), if_neg (by omega), if_pos h1]
  · intro s h1 h2
    unfold answerScore hrBand
    rw [if_neg (by omega), if_neg (by omega), if_neg (by omega), if_neg (by omega),
      if_pos h1]
  · intro s h
    have hw : wordCount s = 0 := wordsAux_all_whitespace s.data h false
    refine ⟨hw, ?_⟩
    unfold answerScore hrBand
    rw [hw]
    norm_num
  · intro l
    rfl

/-- Witness for C4: a one-word answer scores 20 and a whitespace-only answer
counts zero words and scores 0. -/
theorem hrScoring_spec_witness :
    answerScore "hello" = 20 ∧ (wordCount "   " = 0 ∧ answerScore "   " = 0) :=
  ⟨hrScoring_spec.2.2.2.2.2.1 "hello" (by decide) (by decide),
   hrScoring_spec.2.2.2.2.2.2.1 "   " (by decide)⟩

/-- C5: the judge produces exactly one `TestExecutionResult` per test case of
every assigned question, each result is a function of its own test case and
its own execution outcome alone (so one case's timeout cannot abort or alter
the others), and a timed-out case is recorded with `error = timeout`,
`passed = false`. -/
theorem judge_results_spec :
    (∀ (exec : ℕ → ℕ → ExecOutcome) (qs : List CodingQuestion),
      (runJudge exec qs).length = (qs.map (fun q => q.tests.length)).sum) ∧
    (∀ (exec : ℕ → ℕ → ExecOutcome) (q : CodingQuestion) (i : ℕ),
      (judgeQuestion exec q)[i]? =
        (q.tests[i]?).map (fun tc => judgeCase q.id i tc (exec q.id i))) ∧
    (∀ (exec : ℕ → ℕ → ExecOutcome) (q : CodingQuestion) (i : ℕ) (tc : TestCase),
      q.tests[i]? = some tc → exec q.id i = .timeout →
      (judgeQuestion exec q)[i]? =
        some ⟨q.id, i, none, tc.expected, false, some .timeout⟩) := by
  refine ⟨?_, ?_, ?_⟩
  · intro exec qs
    unfold runJudge
    rw [List.length_flatten, List.map_map]
    have hlen : (List.length ∘ judgeQuestion exec) = fun q : CodingQuestion => q.tests.length := by
      funext q
      show (judgeQuestion exec q).length = q.tests.length
      unfold judgeQuestion
      rw [List.length_map, List.enum_length]
    rw [hlen]
  · intro exec q i
    unfold judgeQuestion
    rw [List.getElem?_map, List.getElem?_enum]
    cases q.tests[i]? <;> rfl
  · intro exec q i tc h1 h2
    unfold judgeQuestion
    rw [List.getElem?_map, List.getElem?_enum, h1]
    simp [judgeCase, h2]

/-- Witness for C5 at a concrete submission: with every execution timing out,
the first case of a two-case question is recorded as a timeout in place. -/
theorem judge_results_spec_witness :
    (judgeQuestion (fun _ _ => ExecOutcome.timeout) ⟨1, "p", [⟨"a", "b"⟩, ⟨"c", "d"⟩]⟩)[0]? =
      some ⟨1, 0, none, "b", false, some .timeout⟩ :=
  judge_results_spec.2.2 (fun _ _ => ExecOutcome.timeout)
    ⟨1, "p", [⟨"a", "b"⟩, ⟨"c", "d"⟩]⟩ 0 ⟨"a", "b"⟩ rfl rfl

/-! ## Theorems: selection and state machine (claims about §4.1, §4.4, §6) -/

lemma selectCoding_ok_eq (draw : ℕ → List ℕ → ℕ → List ℕ) (seed k : ℕ)
    (pool : List ℕ) (s : AssessmentSession) (ids : List ℕ) (s' : AssessmentSession)
    (h : selectCoding draw seed k pool s = .ok (ids, s')) :
    s' = { s with assigned_coding := some ids } := by
  unfold selectCoding at h
  cases h0 : s.assigned_coding with
  | some ids0 =>
      rw [h0] at h
      simp only [Except.ok.injEq, Prod.mk.injEq] at h
      obtain ⟨rfl, rfl⟩ := h
      cases s
      simp_all
  | none =>
      rw [h0] at h
      by_cases hp : pool.length < k
      · rw [if_pos hp] at h
        exact absurd h (by simp)
      · rw [if_neg hp] at h
        simp only [Except.ok.injEq, Prod.mk.injEq] at h
        obtain ⟨rfl, rfl⟩ := h
        rfl

lemma selectCoding_frozen (draw : ℕ → List ℕ → ℕ → List ℕ) (seed k : ℕ)
    (pool : List ℕ) (s : AssessmentSession) (ids : List ℕ)
    (h : s.assigned_coding = some ids) :
    selectCoding draw seed k pool s = .ok (ids, s) := by
  unfold selectCoding
  rw [h]

lemma selectBehavioral_ok_eq (draw : ℕ → List ℕ → ℕ → List ℕ) (seed m : ℕ)
    (pool : List ℕ) (s : AssessmentSession) (ids : List ℕ) (s' : AssessmentSession)
    (h : selectBehavioral draw seed m pool s = .ok (ids, s')) :
    s' = { s with assigned_behavioral := some ids } := by
  unfold selectBehavioral at h
  cases h0 : s.assigned_behavioral with
  | some ids0 =>
      rw [h0] at h
      simp only [Except.ok.injEq, Prod.mk.injEq] at h
      obtain ⟨rfl, rfl⟩ := h
      cases s
      simp_all
  | none =>
      rw [h0] at h
      by_cases hp : pool.length < m
      · rw [if_pos hp] at h
        exact absurd h (by simp)
      · rw [if_neg hp] at h
        simp only [Except.ok.injEq, Prod.mk.injEq] at h
        obtain ⟨rfl, rfl⟩ := h
        rfl

lemma selectBehavioral_frozen (draw : ℕ → List ℕ → ℕ → List ℕ) (seed m : ℕ)
    (pool : List ℕ) (s : AssessmentSession) (ids : List ℕ)
    (h : s.assigned_behavioral = some ids) :
    selectBehavioral draw seed m pool s = .ok (ids, s) := by
  unfold selectBehavioral
  rw [h]

/-- C6: selection is performed once and frozen — after a successful call,
any later call (any draw function, seed, sample size or pool) returns the
identical question-id set and leaves the session unchanged — and a fresh
selection from a pool smaller than the requested size fails with
`InsufficientPoolSize`; both for coding and behavioral selection. -/
theorem selection_once_frozen :
    (∀ draw seed k pool s ids s',
      selectCoding draw seed k pool s = .ok (ids, s') →
      ∀ draw2 seed2 k2 pool2,
        selectCoding draw2 seed2 k2 pool2 s' = .ok (ids, s')) ∧
    (∀ draw seed k pool (s : AssessmentSession), s.assigned_coding = none →
      pool.length < k →
      selectCoding draw seed k pool s = .error .InsufficientPoolSize) ∧
    (∀ draw seed m pool s ids s',
      selectBehavioral draw seed m pool s = .ok (ids, s') →
      ∀ draw2 seed2 m2 pool2,
        selectBehavioral draw2 seed2 m2 pool2 s' = .ok (ids, s')) ∧
    (∀ draw seed m pool (s : AssessmentSession), s.assigned_behavioral = none →
      pool.length < m →
      selectBehavioral draw seed m pool s = .error .InsufficientPoolSize) := by
  refine ⟨?_, ?_, ?_, ?_⟩
  · intro draw seed k pool s ids s' h draw2 seed2 k2 pool2
    have he : s' = { s with assigned_coding := some ids } :=
      selectCoding_ok_eq draw seed k pool s ids s' h
    have ha : s'.assigned_coding = some ids := by rw [he]
    exact selectCoding_frozen draw2 seed2 k2 pool2 s' ids ha
  · intro draw seed k pool s h0 hp
    unfold selectCoding
    rw [h0, if_pos hp]
  · intro draw seed m pool s ids s' h draw2 seed2 m2 pool2
    have he : s' = { s with assigned_behavioral := some ids } :=
      selectBehavioral_ok_eq draw seed m pool s ids s' h
    have ha : s'.assigned_behavioral = some ids := by rw [he]
    exact selectBehavioral_frozen draw2 seed2 m2 pool2 s' ids ha
  · intro draw seed m pool s h0 hp
    unfold selectBehavioral
    rw [h0, if_pos hp]

/-- Witness for C6: after a first draw assigns `[1, 2, 3]`, a repeated call —
even with a different draw function and seed — returns the same set, and a
3-element pool cannot supply 4 questions. -/
theorem selection_once_frozen_witness :
    selectCoding (fun _ pool _ => pool.reverse) 99 3 [7, 8, 9, 10]
        ⟨0, 80, some [1, 2, 3], none, none, none, none, none, .CODING_PENDING⟩ =
      .ok ([1, 2, 3],
        ⟨0, 80, some [1, 2, 3], none, none, none, none, none, .CODING_PENDING⟩) ∧
    selectCoding (fun _ pool k => pool.take k) 0 4 [1, 2, 3]
        ⟨0, 80, none, none, none, none, none, none, .RESUME_DONE⟩ =
      .error .InsufficientPoolSize :=
  ⟨selection_once_frozen.1 (fun _ pool k => pool.take k) 0 3 [1, 2, 3]
      ⟨0, 80, none, none, none, none, none, none, .CODING_PENDING⟩ [1, 2, 3]
      ⟨0, 80, some [1, 2, 3], none, none, none, none, none, .CODING_PENDING⟩ rfl
      (fun _ pool _ => pool.reverse) 99 3 [7, 8, 9, 10],
   selection_once_frozen.2.1 (fun _ pool k => pool.take k) 0 4 [1, 2, 3]
      ⟨0, 80, none, none, none, none, none, none, .RESUME_DONE⟩ rfl (by norm_num)⟩

/-- C7: a coding submission against a session at `CODING_DONE` or later is
rejected with `PhaseAlreadyComplete` and the endpoint returns the store
unchanged — in particular the stored session, and with it the stored
`coding_score`, is neither recomputed nor overwritten. -/
theorem resubmission_rejected (judge : List SubmittedAnswer → ℕ)
    (store : ℕ → Option AssessmentSession) (sid : ℕ) (s : AssessmentSession)
    (ans : List SubmittedAnswer) (hs : store sid = some s)
    (hp : s.phase.atLeast .CODING_DONE) :
    submitCodingEndpoint judge store sid ans = (store, .error .PhaseAlreadyComplete) ∧
    (submitCodingEndpoint judge store sid ans).1 sid = some s := by
  have hsub : submitCodingAnswers judge s ans = .error .PhaseAlreadyComplete := by
    unfold submitCodingAnswers
    cases hph : s.phase with
    | RESUME_DONE =>
        exfalso
        rw [Phase.atLeast, hph] at hp
        exact absurd hp (by decide)
    | CODING_PENDING =>
        exfalso
        rw [Phase.atLeast, hph] at hp
        exact absurd hp (by decide)
    | CODING_DONE => rfl
    | HR_PENDING => rfl
    | COMPLETE => rfl
  have hmain : submitCodingEndpoint judge store sid ans
      = (store, .error .PhaseAlreadyComplete) := by
    unfold submitCodingEndpoint
    rw [hs]
    simp only [hsub]
  exact ⟨hmain, by rw [hmain]; exact hs⟩

/-- Witness for C7: a store holding one `CODING_DONE` session with coding
score 60 rejects a second coding submission and is returned unchanged. -/
theorem resubmission_rejected_witness :
    submitCodingEndpoint (fun _ => 100)
        (fun j => if j = 7 then
          some ⟨0, 80, some [1, 2, 3], none, some 60, none, none, none, .CODING_DONE⟩
          else none)
        7 [⟨1, "print(1)"⟩] =
      ((fun j => if j = 7 then
          some ⟨0, 80, some [1, 2, 3], none, some 60, none, none, none, .CODING_DONE⟩
          else none),
        .error .PhaseAlreadyComplete) :=
  (resubmission_rejected (fun _ => 100)
    (fun j => if j = 7 then
      some ⟨0, 80, some [1, 2, 3], none, some 60, none, none, none, .CODING_DONE⟩
      else none)
    7 ⟨0, 80, some [1, 2, 3], none, some 60, none, none, none, .CODING_DONE⟩
    [⟨1, "print(1)"⟩] rfl (by decide)).1

/-- C8: a successful `GetCodingQuestions` answers with exactly the assigned
question ids and the session's resume score, and performs the
`RESUME_DONE → CODING_PENDING` transition only when the session is not
already past it (any later phase is left untouched). -/
theorem getCodingQuestions_spec (draw : ℕ → List ℕ → ℕ → List ℕ) (seed k : ℕ)
    (pool : List ℕ) (s : AssessmentSession) (resp : List ℕ × ℕ)
    (s' : AssessmentSession)
    (h : getCodingQuestions draw seed k pool s = .ok (resp, s')) :
    resp.2 = s.resume_score ∧
    s'.assigned_coding = some resp.1 ∧
    (s.phase = .RESUME_DONE → s'.phase = .CODING_PENDING) ∧
    (s.phase ≠ .RESUME_DONE → s'.phase = s.phase) := by
  unfold getCodingQuestions at h
  cases hsel : selectCoding draw seed k pool s with
  | error e =>
      rw [hsel] at h
      exact absurd h (by simp)
  | ok p =>
      obtain ⟨ids, s1⟩ := p
      rw [hsel] at h
      have he : s1 = { s with assigned_coding := some ids } :=
        selectCoding_ok_eq draw seed k pool s ids s1 hsel
      simp only [Except.ok.injEq, Prod.mk.injEq] at h
      obtain ⟨h12, h3⟩ := h
      subst he
      refine ⟨?_, ?_, ?_, ?_⟩
      · rw [← h12]
      · rw [← h3, ← h12]
        by_cases hph : s.phase = Phase.RESUME_DONE <;> simp [hph]
      · intro hph
        rw [← h3]
        simp [hph]
      · intro hph
        rw [← h3]
        simp [hph]

/-- Witness for C8: a fresh `RESUME_DONE` session with resume score 80 and a
4-element pool gets 3 questions, its resume score echoed, and moves to
`CODING_PENDING`. -/
theorem getCodingQuestions_spec_witness :
    ((([1, 2, 3], 80) : List ℕ × ℕ).2 = 80 ∧
      (⟨0, 80, some [1, 2, 3], none, none, none, none, none,
        Phase.CODING_PENDING⟩ : AssessmentSession).assigned_coding = some [1, 2, 3] ∧
      ((⟨0, 80, none, none, none, none, none, none,
        Phase.RESUME_DONE⟩ : AssessmentSession).phase = .RESUME_DONE →
        (⟨0, 80, some [1, 2, 3], none, none, none, none, none,
          Phase.CODING_PENDING⟩ : AssessmentSession).phase = .CODING_PENDING) ∧
      ((⟨0, 80, none, none, none, none, none, none,
        Phase.RESUME_DONE⟩ : AssessmentSession).phase ≠ .RESUME_DONE →
        (⟨0, 80, some [1, 2, 3], none, none, none, none, none,
          Phase.CODING_PENDING⟩ : AssessmentSession).phase =
        (⟨0, 80, none, none, none, none, none, none,
          Phase.RESUME_DONE⟩ : AssessmentSession).phase)) :=
  getCodingQuestions_spec (fun _ pool k => pool.take k) 0 3 [1, 2, 3, 4]
    ⟨0, 80, none, none, none, none, none, none, .RESUME_DONE⟩ ([1, 2, 3], 80)
    ⟨0, 80, some [1, 2, 3], none, none, none, none, none, .CODING_PENDING⟩ rfl

/-! ## Theorems: frontend behaviour (from the React sources) -/

/-- C9: both assessment views submit exactly one answer entry per fetched
question, in the fetched order, each carrying that question's id and the
candidate's text run through `|| ''` — so a blank (absent or empty) answer is
sent as the empty string and the answer count always equals the question
count. -/
theorem formattedAnswers_spec :
    (∀ (qs : List UIQuestion) (a : ℕ → Option String),
      (codingFormattedAnswers qs a).length = qs.length) ∧
    (∀ (qs : List UIQuestion) (a : ℕ → Option String) (i : ℕ),
      (codingFormattedAnswers qs a)[i]? =
        (qs[i]?).map (fun q => ⟨q.id, jsOrEmpty (a q.id)⟩)) ∧
    (∀ (qs : List UIQuestion) (a : ℕ → Option String),
      (hrFormattedAnswers qs a).length = qs.length) ∧
    (∀ (qs : List UIQuestion) (a : ℕ → Option String) (i : ℕ),
      (hrFormattedAnswers qs a)[i]? =
        (qs[i]?).map (fun q => ⟨q.id, jsOrEmpty (a q.id)⟩)) ∧
    jsOrEmpty none = "" ∧ jsOrEmpty (some "") = "" := by
  refine ⟨?_, ?_, ?_, ?_, rfl, rfl⟩
  · intro qs a
    unfold codingFormattedAnswers
    rw [List.length_map]
  · intro qs a i
    unfold codingFormattedAnswers
    rw [List.getElem?_map]
  · intro qs a
    unfold hrFormattedAnswers
    rw [List.length_map]
  · intro qs a i
    unfold hrFormattedAnswers
    rw [List.getElem?_map]

/-- C10: the admin views render a coding score of 0 exactly as they render a
score that has not been computed yet — both fall to the `|| 'N/A'` branch. -/
theorem renderCodingScore_zero_na :
    renderCodingScore (some 0) = "N/A" ∧ renderCodingScore none = "N/A" ∧
    renderCodingScore (some 0) = renderCodingScore none :=
  ⟨rfl, rfl, rfl⟩
